import Mathlib

/- Shallow embedding of the go-clustering repository
   (src/clustering/vectors.go and src/clustering/clusterer.go).

   Modelling conventions:
   * `float64` is modelled by `ℚ` (exact arithmetic); the Go literal `0.1`
     becomes `1/10`.
   * the iteration order of a Go map (`Centroids()` in `FindCluster`) is
     unspecified by the language, so it is an explicit parameter: a list of
     keys that ranges over the permutations of the key set.
   * draws from the global RNG (`rand.Float64`) are explicit parameters.
   * the unbounded refinement loop of `KMeansWithCentroids` takes explicit
     fuel; exhaustion is the error "fuel exhausted".
   * a Go runtime panic (out-of-range slice index) is modelled as an
     `Except.error` carrying the panic message. -/

/-- `Vector2` from vectors.go: a real vector with 2 components. -/
structure Vector2 where
  x : ℚ
  y : ℚ
  deriving DecidableEq

/-- `Vector2d` from vectors.go. -/
def Vector2d (x y : ℚ) : Vector2 := ⟨x, y⟩

/-- `Vector2.Add`: component-wise addition. -/
def Vector2.Add (v other : Vector2) : Vector2 := ⟨v.x + other.x, v.y + other.y⟩

/-- `Vector2.Subtract`: component-wise subtraction `v - other`. -/
def Vector2.Subtract (v other : Vector2) : Vector2 := ⟨v.x - other.x, v.y - other.y⟩

/-- `Vector2.MulScalar`: scalar multiplication. -/
def Vector2.MulScalar (v : Vector2) (other : ℚ) : Vector2 := ⟨v.x * other, v.y * other⟩

/-- `Vector2.TransposedMul`: inner product. -/
def Vector2.TransposedMul (v other : Vector2) : ℚ := v.x * other.x + v.y * other.y

/-- `Vector2.Length`: the inner product of the vector with itself. -/
def Vector2.Length (v : Vector2) : ℚ := v.TransposedMul v

/-- `Vector2.Normalize`; the two `rand.Float64` draws of the zero-vector
branch are the explicit arguments `r1 r2`. -/
def Vector2.Normalize (v : Vector2) (r1 r2 : ℚ) : Vector2 :=
  if v.Length = 0 then Vector2d r1 r2 else v.MulScalar (1 / v.Length)

/-- `Vector2.DistanceTo`: length of the difference. -/
def Vector2.DistanceTo (v other : Vector2) : ℚ := (v.Subtract other).Length

/-- `CentroidClusterer.Clusters`: the list `0, 1, ..., len-1`. -/
def CentroidClusterer.Clusters (clusterer : List Vector2) : List ℕ :=
  List.range clusterer.length

/-- One step of the `range clusterer.Centroids()` loop of `FindCluster`:
take the entry `k` when its centroid is strictly closer than the current
best. -/
def findClusterStep (clusterer : List Vector2) (v : Vector2) (best : ℕ × Vector2) (k : ℕ) :
    ℕ × Vector2 :=
  let centroid := clusterer.getD k (Vector2d 0 0)
  if centroid.DistanceTo v < best.2.DistanceTo v then (k, centroid) else best

/-- `CentroidClusterer.FindCluster`; `ord` is the iteration order of the Go
map `Centroids()` (unspecified by Go: some permutation of the keys
`0..len-1`).  The scan starts from the entry of key `0`. -/
def CentroidClusterer.FindClusterWith (clusterer : List Vector2) (ord : List ℕ) (v : Vector2) :
    Except String ℕ :=
  match clusterer with
  | [] => .error "There are no centroids in the CentroidClusterer"
  | c0 :: _ => .ok (ord.foldl (findClusterStep clusterer v) (0, c0)).1

/-- The loop of `ClusteredPartition`: `i` is the position in the dataset,
`ords i` the map iteration order used by that call to `FindCluster`, and
`partition` the map under construction (absent keys read as `[]`, exactly
like appending to a `nil` Go slice). -/
def partitionGo (clusterer : List Vector2) (ords : ℕ → List ℕ) :
    List Vector2 → ℕ → (ℕ → List Vector2) → Except String (ℕ → List Vector2)
  | [], _, partition => .ok partition
  | vec :: rest, i, partition =>
    match CentroidClusterer.FindClusterWith clusterer (ords i) vec with
    | .error e => .error e
    | .ok c =>
      partitionGo clusterer ords rest (i + 1)
        (fun j => if j = c then partition j ++ [vec] else partition j)

/-- `CentroidClusterer.ClusteredPartition`, the map iteration orders of the
inner `FindCluster` calls made explicit. -/
def CentroidClusterer.ClusteredPartitionWith (clusterer : List Vector2) (ords : ℕ → List ℕ)
    (dataset : List Vector2) : Except String (ℕ → List Vector2) :=
  partitionGo clusterer ords dataset 0 (fun _ => [])

/-- `bucketCollector` from clusterer.go (zero value: `nil` average, 0). -/
structure bucketCollector where
  average : Option Vector2
  normalization : ℕ
  deriving DecidableEq

/-- `bucketCollector.Collect`. -/
def bucketCollector.Collect (collector : bucketCollector) (vec : Vector2) : bucketCollector :=
  match collector.average with
  | none => ⟨some vec, collector.normalization + 1⟩
  | some avg => ⟨some (avg.Add vec), collector.normalization + 1⟩

/-- `bucketCollector.Average`. -/
def bucketCollector.Average (collector : bucketCollector) : Option Vector2 :=
  match collector.average with
  | none => none
  | some avg => some (avg.MulScalar (1 / (collector.normalization : ℚ)))

/-- The inner `for k, centroid := range centroids` scan of `collectClusters`:
`best` is the pair (cluster, distToCluster), `k` the index of the head of
the remaining list. -/
def nearestLoop (record : Vector2) : List Vector2 → ℕ → ℕ × ℚ → ℕ × ℚ
  | [], _, best => best
  | centroid :: rest, k, best =>
    nearestLoop record rest (k + 1)
      (if record.DistanceTo centroid < best.2 then (k, record.DistanceTo centroid) else best)

/-- The index chosen by the assignment scan of `collectClusters`; `c0` is
`centroids[0]`, whose distance initialises `distToCluster`. -/
def nearestIndex (centroids : List Vector2) (c0 : Vector2) (record : Vector2) : ℕ :=
  (nearestLoop record centroids 0 (0, c0.DistanceTo record)).1

/-- The body of the dataset loop of `collectClusters`:
`buckets[cluster].Collect(record)`. -/
def collectStep (centroids : List Vector2) (c0 : Vector2) (buckets : List bucketCollector)
    (record : Vector2) : List bucketCollector :=
  let cluster := nearestIndex centroids c0 record
  buckets.set cluster ((buckets.getD cluster ⟨none, 0⟩).Collect record)

/-- `collectClusters`.  With no centroids and a non-empty dataset the Go
code evaluates `centroids[0]` and panics; with an empty dataset the loop
body never runs and the empty bucket slice is returned. -/
def collectClusters (dataset centroids : List Vector2) : Except String (List bucketCollector) :=
  match centroids with
  | [] =>
    if dataset.isEmpty then .ok []
    else .error "panic: runtime error: index out of range"
  | c0 :: _ =>
    .ok (dataset.foldl (collectStep centroids c0) (List.replicate centroids.length ⟨none, 0⟩))

/-- Centroid written by iteration `i` of `createNewCentroids` (iteration `i`
reads and writes only index `i`, so the sequential in-place mutation is a
map over the indices). -/
def newCentroidAt (centroids : List Vector2) (buckets : List bucketCollector) (i : ℕ) : Vector2 :=
  match (buckets.getD i ⟨none, 0⟩).Average with
  | none => centroids.getD i (Vector2d 0 0)
  | some newCentroid => newCentroid

/-- Delta written by iteration `i` of `createNewCentroids` (computed from
the pre-assignment centroid at index `i`). -/
def deltaAt (centroids : List Vector2) (buckets : List bucketCollector) (i : ℕ) : ℚ :=
  match (buckets.getD i ⟨none, 0⟩).Average with
  | none => 0
  | some newCentroid => (centroids.getD i (Vector2d 0 0)).DistanceTo newCentroid

/-- `createNewCentroids`: the updated centroid list and the delta list. -/
def createNewCentroids (centroids : List Vector2) (buckets : List bucketCollector) :
    List Vector2 × List ℚ :=
  ((List.range centroids.length).map (newCentroidAt centroids buckets),
   (List.range centroids.length).map (deltaAt centroids buckets))

/-- The `for maxDelta := 1.0; maxDelta > 0.1;` loop of
`KMeansWithCentroids`.  The initial check `1.0 > 0.1` always passes, so the
body runs, then the freshly computed `maxDelta` is checked.  `fuel` bounds
the number of passes; the Go loop is unbounded. -/
def kMeansLoop (dataset : List Vector2) : List Vector2 → ℕ → Except String (List Vector2)
  | _, 0 => .error "fuel exhausted"
  | centroids, fuel + 1 =>
    match collectClusters dataset centroids with
    | .error e => .error e
    | .ok buckets =>
      let p := createNewCentroids centroids buckets
      let maxDelta := p.2.foldl (fun m delta => if delta > m then delta else m) 0
      if maxDelta > (1 / 10 : ℚ) then kMeansLoop dataset p.1 fuel else .ok p.1

/-- `Dataset.KMeansWithCentroids`. -/
def Dataset.KMeansWithCentroids (dataset : List Vector2) (centroids : List Vector2) (fuel : ℕ) :
    Except String (List Vector2) :=
  if dataset.isEmpty then .ok [] else kMeansLoop dataset centroids fuel

/-- `Dataset.Max`: largest vector of the dataset, starting from the null
vector with its length. -/
def Dataset.Max (dataset : List Vector2) : Vector2 :=
  (dataset.foldl
    (fun best vec => if vec.Length > best.2 then (vec, vec.Length) else best)
    (Vector2d 0 0, (Vector2d 0 0).Length)).1

/-- `makeCentroids`: `k` samples at the dataset's maximal length. -/
def makeCentroids (k : ℕ) (dataset : List Vector2) (sampler : ℕ → ℚ → Vector2) : List Vector2 :=
  (List.range k).map (fun i => sampler i (Dataset.Max dataset).Length)

/-- `Dataset.KMeansWithSampler`. -/
def Dataset.KMeansWithSampler (dataset : List Vector2) (k : ℕ) (sampler : ℕ → ℚ → Vector2)
    (fuel : ℕ) : Except String (List Vector2) :=
  if dataset.isEmpty then .ok []
  else Dataset.KMeansWithCentroids dataset (makeCentroids k dataset sampler) fuel

/-- `Dataset.KMeans` calls `KMeansWithSampler` with `uniformSampler`; that
sampler rejection-samples from the global RNG, so the instantiated sampler
is abstracted as the argument `usampler`.  The empty-dataset check happens
before the sampler is ever used. -/
def Dataset.KMeans (dataset : List Vector2) (k : ℕ) (usampler : ℕ → ℚ → Vector2) (fuel : ℕ) :
    Except String (List Vector2) :=
  if dataset.isEmpty then .ok [] else Dataset.KMeansWithSampler dataset k usampler fuel

/- ---------- general lemmas about the embedded operations ---------- -/

theorem Vector2.DistanceTo_comm (a b : Vector2) : a.DistanceTo b = b.DistanceTo a := by
  simp only [Vector2.DistanceTo, Vector2.Subtract, Vector2.Length, Vector2.TransposedMul]
  ring

theorem Vector2.DistanceTo_self (a : Vector2) : a.DistanceTo a = 0 := by
  simp only [Vector2.DistanceTo, Vector2.Subtract, Vector2.Length, Vector2.TransposedMul]
  ring

theorem Vector2.DistanceTo_nonneg (a b : Vector2) : 0 ≤ a.DistanceTo b := by
  simp only [Vector2.DistanceTo, Vector2.Subtract, Vector2.Length, Vector2.TransposedMul]
  have h1 := mul_self_nonneg (a.x - b.x)
  have h2 := mul_self_nonneg (a.y - b.y)
  linarith

theorem getD_map_range {α : Type} (f : ℕ → α) (d : α) {k i : ℕ} (h : i < k) :
    ((List.range k).map f).getD i d = f i := by
  rw [List.getD_eq_getElem?_getD, List.getElem?_map, List.getElem?_range h]
  rfl

/- ---------- C1 ---------- -/

/-- Claim C1 (code bug): `Normalize` divides by `Length`, which is the
squared norm, so on the nonzero vector (2,0) it returns (1/2,0), whose
`Length` is 1/4 and whose true Euclidean norm is 1/2 — not a unit vector;
and on the null vector it returns the raw random draws, e.g. (1/2,1/2),
whose `Length` is 1/2 — also not a unit vector.  This contradicts the
method's own documentation ("a length of 1"). -/
theorem normalize_bug :
    Vector2.Normalize ⟨2, 0⟩ 0 0 = ⟨1/2, 0⟩ ∧
    (Vector2.Normalize ⟨2, 0⟩ 0 0).Length = 1/4 ∧
    ((1/4 : ℚ) ≠ 1) ∧
    Vector2.Normalize ⟨0, 0⟩ (1/2) (1/2) = ⟨1/2, 1/2⟩ ∧
    (Vector2.Normalize ⟨0, 0⟩ (1/2) (1/2)).Length ≠ 1 := by
  norm_num [Vector2.Normalize, Vector2.Length, Vector2.TransposedMul, Vector2.MulScalar,
    Vector2d]

/- ---------- C3 ---------- -/

/-- Claim C3 (confirmed): `Length` is the inner product of the vector with
itself, i.e. the squared Euclidean norm (not its square root), and
`DistanceTo` is the `Length` of the difference, i.e. the squared Euclidean
norm of `a - b`. -/
theorem length_is_squared_norm (v a b : Vector2) :
    v.Length = v.TransposedMul v ∧
    v.Length = v.x ^ 2 + v.y ^ 2 ∧
    a.DistanceTo b = Vector2.Length (a.Subtract b) ∧
    a.DistanceTo b = (a.x - b.x) ^ 2 + (a.y - b.y) ^ 2 := by
  refine ⟨rfl, ?_, rfl, ?_⟩ <;>
    (simp only [Vector2.Length, Vector2.TransposedMul, Vector2.DistanceTo, Vector2.Subtract]
     ring)

/- ---------- C7 ---------- -/

/-- Claim C7 (confirmed): all three K-Means entry points short-circuit an
empty dataset to the empty clusterer without error, and `Clusters` of that
result is the empty list. -/
theorem kmeans_empty_dataset (k fuel : ℕ) (usampler : ℕ → ℚ → Vector2)
    (centroids : List Vector2) :
    Dataset.KMeans [] k usampler fuel = .ok [] ∧
    Dataset.KMeansWithSampler [] k usampler fuel = .ok [] ∧
    Dataset.KMeansWithCentroids [] centroids fuel = .ok [] ∧
    CentroidClusterer.Clusters [] = [] :=
  ⟨rfl, rfl, rfl, rfl⟩

/- ---------- C10 ---------- -/

/-- Claim C10 (confirmed): on a non-empty dataset with an empty initial
centroid list (hence also `KMeansWithSampler`/`KMeans` with k = 0), the
assignment step indexes `centroids[0]` and the call dies with the
index-out-of-range panic — it neither returns an empty clusterer nor a
recoverable error value. -/
theorem kmeans_no_centroids_panics (v : Vector2) (rest : List Vector2) (fuel : ℕ)
    (sampler : ℕ → ℚ → Vector2) (hfuel : 1 ≤ fuel) :
    Dataset.KMeansWithCentroids (v :: rest) [] fuel =
      .error "panic: runtime error: index out of range" ∧
    Dataset.KMeansWithSampler (v :: rest) 0 sampler fuel =
      .error "panic: runtime error: index out of range" ∧
    Dataset.KMeans (v :: rest) 0 sampler fuel =
      .error "panic: runtime error: index out of range" := by
  match fuel, hfuel with
  | f + 1, _ =>
    refine ⟨rfl, ?_, ?_⟩ <;>
      simp only [Dataset.KMeans, Dataset.KMeansWithSampler, Dataset.KMeansWithCentroids,
        makeCentroids, List.range_zero, List.map_nil, List.isEmpty_cons, kMeansLoop,
        collectClusters, Bool.false_eq_true, if_false]

/-- Witness for C10 at the dataset [(1,1)], fuel 1, a constant sampler. -/
theorem kmeans_no_centroids_panics_witness :
    Dataset.KMeansWithCentroids [⟨1, 1⟩] [] 1 =
      .error "panic: runtime error: index out of range" ∧
    Dataset.KMeansWithSampler [⟨1, 1⟩] 0 (fun _ _ => Vector2d 0 0) 1 =
      .error "panic: runtime error: index out of range" ∧
    Dataset.KMeans [⟨1, 1⟩] 0 (fun _ _ => Vector2d 0 0) 1 =
      .error "panic: runtime error: index out of range" :=
  kmeans_no_centroids_panics ⟨1, 1⟩ [] 1 (fun _ _ => Vector2d 0 0) (by decide)

/- ---------- C8 ---------- -/

theorem Vector2.MulScalar_one (v : Vector2) : v.MulScalar 1 = v := by
  cases v
  simp [Vector2.MulScalar]

theorem collectClusters_single (v c : Vector2) :
    collectClusters [v] [c] = .ok [⟨some v, 1⟩] := by
  have h : ¬ (v.DistanceTo c < c.DistanceTo v) := by
    rw [Vector2.DistanceTo_comm]
    exact lt_irrefl _
  simp [collectClusters, collectStep, nearestIndex, nearestLoop, h, List.getD,
    bucketCollector.Collect]

theorem createNewCentroids_single (v c : Vector2) :
    createNewCentroids [c] [⟨some v, 1⟩] = ([v], [c.DistanceTo v]) := by
  norm_num [createNewCentroids, newCentroidAt, deltaAt, bucketCollector.Average,
    List.range_succ, List.getD, Vector2.MulScalar_one]

theorem kMeansLoop_succ (dataset centroids : List Vector2) (f : ℕ) :
    kMeansLoop dataset centroids (f + 1) =
      match collectClusters dataset centroids with
      | .error e => .error e
      | .ok buckets =>
        let p := createNewCentroids centroids buckets
        let maxDelta := p.2.foldl (fun m delta => if delta > m then delta else m) 0
        if maxDelta > (1 / 10 : ℚ) then kMeansLoop dataset p.1 f else .ok p.1 := rfl

theorem kMeansLoop_succ_ok (dataset centroids : List Vector2) (f : ℕ)
    (buckets : List bucketCollector) (h : collectClusters dataset centroids = .ok buckets) :
    kMeansLoop dataset centroids (f + 1) =
      if ((createNewCentroids centroids buckets).2.foldl
            (fun m delta => if delta > m then delta else m) 0) > (1 / 10 : ℚ)
      then kMeansLoop dataset (createNewCentroids centroids buckets).1 f
      else .ok (createNewCentroids centroids buckets).1 := by
  rw [kMeansLoop_succ, h]

theorem kMeansLoop_single_self (v : Vector2) (f : ℕ) :
    kMeansLoop [v] [v] (f + 1) = .ok [v] := by
  rw [kMeansLoop_succ_ok [v] [v] f _ (collectClusters_single v v), createNewCentroids_single]
  norm_num [Vector2.DistanceTo_self]

theorem kMeansLoop_single (v c : Vector2) (f : ℕ) :
    kMeansLoop [v] [c] (f + 1 + 1) = .ok [v] := by
  rw [kMeansLoop_succ_ok [v] [c] (f + 1) _ (collectClusters_single v c),
    createNewCentroids_single]
  show (if (if 0 < c.DistanceTo v then c.DistanceTo v else 0) > (1 / 10 : ℚ)
    then kMeansLoop [v] [v] (f + 1) else .ok [v]) = .ok [v]
  by_cases h0 : (0 : ℚ) < c.DistanceTo v
  · rw [if_pos h0]
    by_cases h : (c.DistanceTo v) > (1 / 10 : ℚ)
    · rw [if_pos h]
      exact kMeansLoop_single_self v f
    · rw [if_neg h]
  · rw [if_neg h0, if_neg (by norm_num : ¬ (0 : ℚ) > (1 / 10 : ℚ))]

/-- Claim C8 (confirmed): on the one-vector dataset [v] with a single
initial centroid c, the first Assignment pass puts v in the only bucket,
the first Update step already recomputes the centroid as v itself, and
(with fuel for the at most one extra no-move pass the loop may take before
its threshold check passes) the returned clusterer's only centroid is v. -/
theorem kmeans_single_point (v c : Vector2) (fuel : ℕ) (hfuel : 2 ≤ fuel) :
    collectClusters [v] [c] = .ok [⟨some v, 1⟩] ∧
    (createNewCentroids [c] [⟨some v, 1⟩]).1 = [v] ∧
    Dataset.KMeansWithCentroids [v] [c] fuel = .ok [v] := by
  match fuel, hfuel with
  | f + 2, _ =>
    refine ⟨collectClusters_single v c, by rw [createNewCentroids_single], ?_⟩
    show kMeansLoop [v] [c] (f + 1 + 1) = .ok [v]
    exact kMeansLoop_single v c f

/-- Witness for C8: dataset [(3,4)], initial centroid (0,0), fuel 2. -/
theorem kmeans_single_point_witness :
    collectClusters [⟨3, 4⟩] [⟨0, 0⟩] = .ok [⟨some ⟨3, 4⟩, 1⟩] ∧
    (createNewCentroids [⟨0, 0⟩] [⟨some ⟨3, 4⟩, 1⟩]).1 = [⟨3, 4⟩] ∧
    Dataset.KMeansWithCentroids [⟨3, 4⟩] [⟨0, 0⟩] 2 = .ok [⟨3, 4⟩] :=
  kmeans_single_point ⟨3, 4⟩ ⟨0, 0⟩ 2 (by decide)

/- ---------- C2 ---------- -/

theorem findScan_inv (clusterer : List Vector2) (v : Vector2) (ord : List ℕ) :
    ∀ best : ℕ × Vector2,
      best.1 < clusterer.length →
      best.2 = clusterer.getD best.1 (Vector2d 0 0) →
      (∀ k ∈ ord, k < clusterer.length) →
      (ord.foldl (findClusterStep clusterer v) best).1 < clusterer.length ∧
      (ord.foldl (findClusterStep clusterer v) best).2 =
        clusterer.getD (ord.foldl (findClusterStep clusterer v) best).1 (Vector2d 0 0) ∧
      (ord.foldl (findClusterStep clusterer v) best).2.DistanceTo v ≤ best.2.DistanceTo v ∧
      ∀ k ∈ ord,
        (ord.foldl (findClusterStep clusterer v) best).2.DistanceTo v ≤
          (clusterer.getD k (Vector2d 0 0)).DistanceTo v := by
  induction ord with
  | nil =>
    intro best h1 h2 _
    exact ⟨h1, h2, le_refl _, by simp⟩
  | cons k ord ih =>
    intro best h1 h2 hord
    have hk : k < clusterer.length := hord k (List.mem_cons_self _ _)
    have hord' : ∀ j ∈ ord, j < clusterer.length := fun j hj => hord j (List.mem_cons_of_mem _ hj)
    simp only [List.foldl_cons]
    by_cases hc : (clusterer.getD k (Vector2d 0 0)).DistanceTo v < best.2.DistanceTo v
    · have hstep : findClusterStep clusterer v best k = (k, clusterer.getD k (Vector2d 0 0)) := by
        show (if (clusterer.getD k (Vector2d 0 0)).DistanceTo v < best.2.DistanceTo v
          then (k, clusterer.getD k (Vector2d 0 0)) else best) = _
        exact if_pos hc
      rw [hstep]
      obtain ⟨r1, r2, r3, r4⟩ := ih (k, clusterer.getD k (Vector2d 0 0)) hk rfl hord'
      refine ⟨r1, r2, le_trans r3 (le_of_lt hc), ?_⟩
      intro j hj
      rcases List.mem_cons.mp hj with rfl | hj
      · exact r3
      · exact r4 j hj
    · have hstep : findClusterStep clusterer v best k = best := by
        show (if (clusterer.getD k (Vector2d 0 0)).DistanceTo v < best.2.DistanceTo v
          then (k, clusterer.getD k (Vector2d 0 0)) else best) = _
        exact if_neg hc
      rw [hstep]
      obtain ⟨r1, r2, r3, r4⟩ := ih best h1 h2 hord'
      refine ⟨r1, r2, r3, ?_⟩
      intro j hj
      rcases List.mem_cons.mp hj with rfl | hj
      · exact le_trans r3 (not_lt.mp hc)
      · exact r4 j hj

/-- Claim C2 as amended: on a non-empty clusterer, `FindCluster` always
returns the identifier of a centroid at minimum distance to `v`, for every
iteration order of the `Centroids()` map; which of several tied nearest
centroids wins depends on that (unspecified) order, so the smallest
identifier is not guaranteed. -/
theorem findCluster_min_dist (c0 : Vector2) (cr : List Vector2) (ord : List ℕ) (v : Vector2)
    (hord : ord.Perm (List.range (c0 :: cr).length)) :
    ∃ i, CentroidClusterer.FindClusterWith (c0 :: cr) ord v = .ok i ∧
      i < (c0 :: cr).length ∧
      ∀ j < (c0 :: cr).length,
        ((c0 :: cr).getD i (Vector2d 0 0)).DistanceTo v ≤
          ((c0 :: cr).getD j (Vector2d 0 0)).DistanceTo v := by
  have hlt : ∀ k ∈ ord, k < (c0 :: cr).length := fun k hk =>
    List.mem_range.mp (hord.mem_iff.mp hk)
  obtain ⟨r1, r2, _, r4⟩ :=
    findScan_inv (c0 :: cr) v ord (0, c0) (Nat.succ_pos _) rfl hlt
  refine ⟨(ord.foldl (findClusterStep (c0 :: cr) v) (0, c0)).1, rfl, r1, ?_⟩
  intro j hj
  have hjord : j ∈ ord := hord.mem_iff.mpr (List.mem_range.mpr hj)
  have hle := r4 j hjord
  rwa [r2] at hle

/-- Witness for the amended C2 at a one-centroid clusterer. -/
theorem findCluster_min_dist_witness :
    ∃ i, CentroidClusterer.FindClusterWith [⟨1, 2⟩] [0] ⟨0, 0⟩ = .ok i ∧
      i < ([⟨1, 2⟩] : List Vector2).length ∧
      ∀ j < ([⟨1, 2⟩] : List Vector2).length,
        (([⟨1, 2⟩] : List Vector2).getD i (Vector2d 0 0)).DistanceTo ⟨0, 0⟩ ≤
          (([⟨1, 2⟩] : List Vector2).getD j (Vector2d 0 0)).DistanceTo ⟨0, 0⟩ :=
  findCluster_min_dist ⟨1, 2⟩ [] [0] ⟨0, 0⟩ (by decide)

/-- Counterexample to C2 as stated: centroids 1 and 2 are tied nearest to
(0,0) (both strictly closer than centroid 0); under the legal map
iteration order [0,1,2] the scan returns 1, but under the equally legal
order [2,0,1] it returns 2 — not the smallest tied identifier. -/
theorem findCluster_tie_counterexample :
    [2, 0, 1].Perm (List.range ([⟨5, 5⟩, ⟨1, 0⟩, ⟨0, 1⟩] : List Vector2).length) ∧
    Vector2.DistanceTo ⟨1, 0⟩ ⟨0, 0⟩ = Vector2.DistanceTo ⟨0, 1⟩ ⟨0, 0⟩ ∧
    Vector2.DistanceTo ⟨1, 0⟩ ⟨0, 0⟩ < Vector2.DistanceTo ⟨5, 5⟩ ⟨0, 0⟩ ∧
    CentroidClusterer.FindClusterWith [⟨5, 5⟩, ⟨1, 0⟩, ⟨0, 1⟩] [0, 1, 2] ⟨0, 0⟩ = .ok 1 ∧
    CentroidClusterer.FindClusterWith [⟨5, 5⟩, ⟨1, 0⟩, ⟨0, 1⟩] [2, 0, 1] ⟨0, 0⟩ = .ok 2 := by
  refine ⟨by decide, ?_, ?_, ?_, ?_⟩ <;>
    norm_num [CentroidClusterer.FindClusterWith, findClusterStep, Vector2.DistanceTo,
      Vector2.Subtract, Vector2.Length, Vector2.TransposedMul, Vector2d, List.getD]

/- ---------- C9 ---------- -/

theorem nearestLoop_inv (record : Vector2) (centroids : List Vector2) :
    ∀ (cs : List Vector2) (k : ℕ) (best : ℕ × ℚ),
      centroids.drop k = cs →
      best.1 ≤ k →
      best.1 < centroids.length →
      best.2 = record.DistanceTo (centroids.getD best.1 (Vector2d 0 0)) →
      (∀ j < k, best.2 ≤ record.DistanceTo (centroids.getD j (Vector2d 0 0))) →
      (∀ j < best.1, best.2 < record.DistanceTo (centroids.getD j (Vector2d 0 0))) →
      (nearestLoop record cs k best).1 < centroids.length ∧
      (nearestLoop record cs k best).2 =
        record.DistanceTo (centroids.getD (nearestLoop record cs k best).1 (Vector2d 0 0)) ∧
      (∀ j < k + cs.length,
        (nearestLoop record cs k best).2 ≤
          record.DistanceTo (centroids.getD j (Vector2d 0 0))) ∧
      (∀ j < (nearestLoop record cs k best).1,
        (nearestLoop record cs k best).2 <
          record.DistanceTo (centroids.getD j (Vector2d 0 0))) := by
  intro cs
  induction cs with
  | nil =>
    intro k best _ _ h2 h3 h4 h5
    exact ⟨h2, h3, by simpa using h4, h5⟩
  | cons c cs ih =>
    intro k best hdrop h1 h2 h3 h4 h5
    have hkl : k < centroids.length := by
      have hlen := congrArg List.length hdrop
      rw [List.length_drop] at hlen
      simp only [List.length_cons] at hlen
      omega
    have hgetk : centroids.getD k (Vector2d 0 0) = c := by
      have h0 : (centroids.drop k)[0]? = some c := by
        rw [hdrop]
        simp
      rw [List.getElem?_drop] at h0
      rw [List.getD_eq_getElem?_getD]
      simp only [Nat.add_zero] at h0
      rw [h0]
      rfl
    have hdrop' : centroids.drop (k + 1) = cs := by
      rw [← List.drop_drop 1 k centroids, hdrop]
      rfl
    have hunfold : nearestLoop record (c :: cs) k best =
        nearestLoop record cs (k + 1)
          (if record.DistanceTo c < best.2 then (k, record.DistanceTo c) else best) := rfl
    rw [hunfold]
    by_cases hc : record.DistanceTo c < best.2
    · rw [if_pos hc]
      have key := ih (k + 1) (k, record.DistanceTo c) hdrop' (Nat.le_succ k) hkl
        (by rw [hgetk])
        (by
          intro j hj
          rcases Nat.lt_succ_iff_lt_or_eq.mp hj with hj | rfl
          · exact le_trans (le_of_lt hc) (h4 j hj)
          · rw [hgetk])
        (by
          intro j hj
          exact lt_of_lt_of_le hc (h4 j hj))
      obtain ⟨r1, r2, r3, r4⟩ := key
      refine ⟨r1, r2, ?_, r4⟩
      intro j hj
      apply r3
      simp only [List.length_cons] at hj
      omega
    · rw [if_neg hc]
      have key := ih (k + 1) best hdrop' (le_trans h1 (Nat.le_succ k)) h2 h3
        (by
          intro j hj
          rcases Nat.lt_succ_iff_lt_or_eq.mp hj with hj | rfl
          · exact h4 j hj
          · rw [hgetk]
            exact not_lt.mp hc)
        h5
      obtain ⟨r1, r2, r3, r4⟩ := key
      refine ⟨r1, r2, ?_, r4⟩
      intro j hj
      apply r3
      simp only [List.length_cons] at hj
      omega

/-- Claim C9 (confirmed): in the Assignment step, the index chosen for a
dataset vector by the linear scan over the (non-empty) centroid list is
in range, achieves the minimum distance to the vector, is strictly closer
than every smaller index (ties keep the lowest index), and the loop body
accumulates the vector into exactly that bucket. -/
theorem assignment_nearest_lowest_index (c0 : Vector2) (cr : List Vector2) (record : Vector2)
    (buckets : List bucketCollector) :
    nearestIndex (c0 :: cr) c0 record < (c0 :: cr).length ∧
    (∀ j < (c0 :: cr).length,
      record.DistanceTo ((c0 :: cr).getD (nearestIndex (c0 :: cr) c0 record) (Vector2d 0 0)) ≤
        record.DistanceTo ((c0 :: cr).getD j (Vector2d 0 0))) ∧
    (∀ j < nearestIndex (c0 :: cr) c0 record,
      record.DistanceTo ((c0 :: cr).getD (nearestIndex (c0 :: cr) c0 record) (Vector2d 0 0)) <
        record.DistanceTo ((c0 :: cr).getD j (Vector2d 0 0))) ∧
    collectStep (c0 :: cr) c0 buckets record =
      buckets.set (nearestIndex (c0 :: cr) c0 record)
        ((buckets.getD (nearestIndex (c0 :: cr) c0 record) ⟨none, 0⟩).Collect record) := by
  obtain ⟨r1, r2, r3, r4⟩ := nearestLoop_inv record (c0 :: cr) (c0 :: cr) 0
    (0, c0.DistanceTo record) rfl (le_refl 0) (Nat.succ_pos _)
    (by rw [List.getD_cons_zero, Vector2.DistanceTo_comm])
    (by intro j hj; omega)
    (by intro j hj; omega)
  unfold nearestIndex
  refine ⟨r1, ?_, ?_, rfl⟩
  · intro j hj
    rw [← r2]
    apply r3
    simpa using hj
  · intro j hj
    rw [← r2]
    exact r4 j hj

/-- Witness for C9 at centroids [(0,0),(2,0)], record (3,0), empty buckets. -/
theorem assignment_nearest_lowest_index_witness :
    nearestIndex [⟨0, 0⟩, ⟨2, 0⟩] ⟨0, 0⟩ ⟨3, 0⟩ < ([⟨0, 0⟩, ⟨2, 0⟩] : List Vector2).length ∧
    (∀ j < ([⟨0, 0⟩, ⟨2, 0⟩] : List Vector2).length,
      Vector2.DistanceTo ⟨3, 0⟩
          (([⟨0, 0⟩, ⟨2, 0⟩] : List Vector2).getD
            (nearestIndex [⟨0, 0⟩, ⟨2, 0⟩] ⟨0, 0⟩ ⟨3, 0⟩) (Vector2d 0 0)) ≤
        Vector2.DistanceTo ⟨3, 0⟩ (([⟨0, 0⟩, ⟨2, 0⟩] : List Vector2).getD j (Vector2d 0 0))) ∧
    (∀ j < nearestIndex [⟨0, 0⟩, ⟨2, 0⟩] ⟨0, 0⟩ ⟨3, 0⟩,
      Vector2.DistanceTo ⟨3, 0⟩
          (([⟨0, 0⟩, ⟨2, 0⟩] : List Vector2).getD
            (nearestIndex [⟨0, 0⟩, ⟨2, 0⟩] ⟨0, 0⟩ ⟨3, 0⟩) (Vector2d 0 0)) <
        Vector2.DistanceTo ⟨3, 0⟩ (([⟨0, 0⟩, ⟨2, 0⟩] : List Vector2).getD j (Vector2d 0 0))) ∧
    collectStep [⟨0, 0⟩, ⟨2, 0⟩] ⟨0, 0⟩ [] ⟨3, 0⟩ =
      ([] : List bucketCollector).set (nearestIndex [⟨0, 0⟩, ⟨2, 0⟩] ⟨0, 0⟩ ⟨3, 0⟩)
        ((([] : List bucketCollector).getD (nearestIndex [⟨0, 0⟩, ⟨2, 0⟩] ⟨0, 0⟩ ⟨3, 0⟩)
          ⟨none, 0⟩).Collect ⟨3, 0⟩) :=
  assignment_nearest_lowest_index ⟨0, 0⟩ [⟨2, 0⟩] ⟨3, 0⟩ []

/- ---------- C6 ---------- -/

/-- Counterexample to C6 as stated: with an empty clusterer but an *empty*
dataset, `ClusteredPartition` never calls `FindCluster` (the loop body never
runs) and returns an empty map with no error, so the error is not
propagated "for every dataset". -/
theorem clusteredPartition_empty_dataset_ok :
    CentroidClusterer.ClusteredPartitionWith [] (fun _ => []) [] = .ok (fun _ => []) := rfl

/-- Claim C6 as amended: with zero centroids, `FindCluster` fails with the
EmptyClusterer error for every input vector and every map iteration order,
and `ClusteredPartition` propagates that error for every *non-empty*
dataset. -/
theorem empty_clusterer_errors :
    (∀ (v : Vector2) (ord : List ℕ),
      CentroidClusterer.FindClusterWith [] ord v =
        .error "There are no centroids in the CentroidClusterer") ∧
    (∀ (v : Vector2) (rest : List Vector2) (ords : ℕ → List ℕ),
      CentroidClusterer.ClusteredPartitionWith [] ords (v :: rest) =
        .error "There are no centroids in the CentroidClusterer") :=
  ⟨fun _ _ => rfl, fun _ _ _ => rfl⟩

/- ---------- C5 ---------- -/

theorem findClusterWith_ok_lt (c0 : Vector2) (cr : List Vector2) (ord : List ℕ) (v : Vector2)
    (hord : ∀ k ∈ ord, k < (c0 :: cr).length) :
    ∃ c, CentroidClusterer.FindClusterWith (c0 :: cr) ord v = .ok c ∧ c < (c0 :: cr).length := by
  obtain ⟨r1, _, _, _⟩ := findScan_inv (c0 :: cr) v ord (0, c0) (Nat.succ_pos _) rfl hord
  exact ⟨_, rfl, r1⟩

theorem partitionGo_cons_ok (clusterer : List Vector2) (ords : ℕ → List ℕ) (vec : Vector2)
    (rest : List Vector2) (i : ℕ) (part : ℕ → List Vector2) (c : ℕ)
    (h : CentroidClusterer.FindClusterWith clusterer (ords i) vec = .ok c) :
    partitionGo clusterer ords (vec :: rest) i part =
      partitionGo clusterer ords rest (i + 1)
        (fun j => if j = c then part j ++ [vec] else part j) := by
  show (match CentroidClusterer.FindClusterWith clusterer (ords i) vec with
    | .error e => .error e
    | .ok c =>
      partitionGo clusterer ords rest (i + 1)
        (fun j => if j = c then part j ++ [vec] else part j)) =
    partitionGo clusterer ords rest (i + 1)
      (fun j => if j = c then part j ++ [vec] else part j)
  rw [h]

theorem partitionGo_inv (c0 : Vector2) (cr : List Vector2) (ords : ℕ → List ℕ)
    (hords : ∀ i, ∀ k ∈ ords i, k < (c0 :: cr).length) :
    ∀ (dataset : List Vector2) (i : ℕ) (part : ℕ → List Vector2),
      ∃ p, partitionGo (c0 :: cr) ords dataset i part = .ok p ∧
        (∑ j ∈ Finset.range (c0 :: cr).length, ((p j : Multiset Vector2))) =
          (∑ j ∈ Finset.range (c0 :: cr).length, ((part j : Multiset Vector2))) + ↑dataset ∧
        (∀ j, ∃ q, p j = part j ++ q ∧ q.Sublist dataset) ∧
        (∀ j, (c0 :: cr).length ≤ j → p j = part j) := by
  intro dataset
  induction dataset with
  | nil =>
    intro i part
    refine ⟨part, rfl, by simp, fun j => ⟨[], by simp, List.Sublist.refl []⟩, fun j _ => rfl⟩
  | cons vec rest ih =>
    intro i part
    obtain ⟨c, hc_eq, hc_lt⟩ := findClusterWith_ok_lt c0 cr (ords i) vec (hords i)
    rw [partitionGo_cons_ok (c0 :: cr) ords vec rest i part c hc_eq]
    obtain ⟨p, hp, hsum, hdec, hhigh⟩ :=
      ih (i + 1) (fun j => if j = c then part j ++ [vec] else part j)
    refine ⟨p, hp, ?_, ?_, ?_⟩
    · rw [hsum]
      have hstep : (∑ j ∈ Finset.range (c0 :: cr).length,
          (((fun j => if j = c then part j ++ [vec] else part j) j : Multiset Vector2))) =
          (∑ j ∈ Finset.range (c0 :: cr).length, ((part j : Multiset Vector2))) +
            (↑([vec] : List Vector2)) := by
        have hpt : ∀ j ∈ Finset.range (c0 :: cr).length,
            (((fun j => if j = c then part j ++ [vec] else part j) j : Multiset Vector2)) =
            ((part j : Multiset Vector2)) +
              (if j = c then (↑([vec] : List Vector2) : Multiset Vector2) else 0) := by
          intro j _
          by_cases hj : j = c
          · simp only [hj, if_pos rfl, if_true]
            exact (Multiset.coe_add (part c) [vec]).symm
          · simp [hj]
        have h2 : (∑ j ∈ Finset.range (c0 :: cr).length,
            (if j = c then (↑([vec] : List Vector2) : Multiset Vector2) else 0)) =
            (↑([vec] : List Vector2) : Multiset Vector2) := by
          rw [Finset.sum_ite_eq' (Finset.range (c0 :: cr).length) c
            (fun _ => (↑([vec] : List Vector2) : Multiset Vector2))]
          exact if_pos (Finset.mem_range.mpr hc_lt)
        rw [Finset.sum_congr rfl hpt, Finset.sum_add_distrib, h2]
      rw [hstep, add_assoc]
      congr 1
    · intro j
      obtain ⟨q, hq, hsub⟩ := hdec j
      by_cases hj : j = c
      · subst hj
        rw [if_pos rfl] at hq
        refine ⟨vec :: q, ?_, hsub.cons₂ vec⟩
        rw [hq, List.append_assoc]
        rfl
      · simp only [if_neg hj] at hq
        exact ⟨q, hq, hsub.cons vec⟩
    · intro j hj
      have hjc : j ≠ c := by omega
      have := hhigh j hj
      rw [this]
      simp [hjc]

/-- Claim C5 (confirmed): for a non-empty clusterer, `ClusteredPartition`
succeeds for every dataset and every family of map iteration orders, and
the result is a true partition: the multiset union of all clusters' lists
is exactly the dataset's multiset of vectors (so every dataset vector
occurrence lands in exactly one list and the total count equals the
dataset's size), each cluster's list is a sublist of the dataset (the
relative order of the dataset is preserved), and identifiers out of range
get nothing. -/
theorem clusteredPartition_true_partition (c0 : Vector2) (cr : List Vector2)
    (ords : ℕ → List ℕ) (dataset : List Vector2)
    (hords : ∀ i, (ords i).Perm (List.range (c0 :: cr).length)) :
    ∃ p, CentroidClusterer.ClusteredPartitionWith (c0 :: cr) ords dataset = .ok p ∧
      (∑ j ∈ Finset.range (c0 :: cr).length, (p j : Multiset Vector2)) = ↑dataset ∧
      (∀ j, (p j).Sublist dataset) ∧
      (∀ j, (c0 :: cr).length ≤ j → p j = []) := by
  have hlt : ∀ i, ∀ k ∈ ords i, k < (c0 :: cr).length := fun i k hk =>
    List.mem_range.mp ((hords i).mem_iff.mp hk)
  obtain ⟨p, hp, hsum, hdec, hhigh⟩ := partitionGo_inv c0 cr ords hlt dataset 0 (fun _ => [])
  refine ⟨p, hp, ?_, ?_, fun j hj => hhigh j hj⟩
  · rw [hsum]
    simp
  · intro j
    obtain ⟨q, hq, hsub⟩ := hdec j
    rw [hq]
    simpa using hsub

/-- Witness for C5 at a one-centroid clusterer and a two-vector dataset. -/
theorem clusteredPartition_true_partition_witness :
    ∃ p, CentroidClusterer.ClusteredPartitionWith [⟨0, 0⟩] (fun _ => [0]) [⟨1, 1⟩, ⟨2, 2⟩] =
        .ok p ∧
      (∑ j ∈ Finset.range ([⟨0, 0⟩] : List Vector2).length, (p j : Multiset Vector2)) =
        ↑([⟨1, 1⟩, ⟨2, 2⟩] : List Vector2) ∧
      (∀ j, (p j).Sublist [⟨1, 1⟩, ⟨2, 2⟩]) ∧
      (∀ j, ([⟨0, 0⟩] : List Vector2).length ≤ j → p j = []) :=
  clusteredPartition_true_partition ⟨0, 0⟩ [] (fun _ => [0]) [⟨1, 1⟩, ⟨2, 2⟩]
    (fun _ => by simp [List.range_succ])

/- ---------- C4 ---------- -/

/-- The vectors of `dataset` that the Assignment scan sends to bucket `i`. -/
def assignedTo (centroids : List Vector2) (c0 : Vector2) (dataset : List Vector2) (i : ℕ) :
    List Vector2 :=
  dataset.filter (fun r => nearestIndex centroids c0 r == i)

/-- The bucket obtained by `Collect`ing a list of vectors into the zero
value, in order. -/
def bucketOf (vs : List Vector2) : bucketCollector :=
  vs.foldl bucketCollector.Collect ⟨none, 0⟩

/-- The arithmetic mean as the spec words it: component-wise sum scaled by
`1/count`. -/
def arithMean (vs : List Vector2) : Vector2 :=
  ⟨(vs.map Vector2.x).sum * (1 / (vs.length : ℚ)),
   (vs.map Vector2.y).sum * (1 / (vs.length : ℚ))⟩

theorem foldl_Collect_some (vs : List Vector2) :
    ∀ (a : Vector2) (m : ℕ),
      vs.foldl bucketCollector.Collect ⟨some a, m⟩ =
        ⟨some (vs.foldl Vector2.Add a), m + vs.length⟩ := by
  induction vs with
  | nil => intro a m; simp
  | cons u vs ih =>
    intro a m
    show vs.foldl bucketCollector.Collect (bucketCollector.Collect ⟨some a, m⟩ u) = _
    have hcol : bucketCollector.Collect ⟨some a, m⟩ u = ⟨some (a.Add u), m + 1⟩ := rfl
    rw [hcol, ih (a.Add u) (m + 1)]
    simp only [List.foldl_cons, List.length_cons]
    congr 1
    omega

theorem foldl_Add_eq (vs : List Vector2) :
    ∀ a : Vector2,
      vs.foldl Vector2.Add a = ⟨a.x + (vs.map Vector2.x).sum, a.y + (vs.map Vector2.y).sum⟩ := by
  induction vs with
  | nil => intro a; simp
  | cons u vs ih =>
    intro a
    rw [List.foldl_cons, ih (a.Add u)]
    simp only [List.map_cons, List.sum_cons, Vector2.Add]
    congr 1 <;> ring

theorem bucketOf_cons_Average (v : Vector2) (vs : List Vector2) :
    (bucketOf (v :: vs)).Average = some (arithMean (v :: vs)) := by
  have h1 : bucketOf (v :: vs) = ⟨some (vs.foldl Vector2.Add v), 1 + vs.length⟩ := by
    show vs.foldl bucketCollector.Collect (bucketCollector.Collect ⟨none, 0⟩ v) = _
    have hcol : bucketCollector.Collect ⟨none, 0⟩ v = ⟨some v, 1⟩ := rfl
    rw [hcol, foldl_Collect_some vs v 1]
  rw [h1, foldl_Add_eq]
  show some (Vector2.MulScalar _ _) = _
  simp only [Vector2.MulScalar, arithMean, List.map_cons, List.sum_cons, List.length_cons]
  congr 2 <;>
    (rw [show ((1 + vs.length : ℕ) : ℚ) = ((vs.length + 1 : ℕ) : ℚ) by push_cast; ring])

theorem set_map_range {α : Type} (g : ℕ → α) (k c : ℕ) (b : α) :
    ((List.range k).map g).set c b = (List.range k).map (fun i => if i = c then b else g i) := by
  apply List.ext_getElem (by simp)
  intro n h1 h2
  simp only [List.getElem_set, List.getElem_map, List.getElem_range]
  by_cases hn : c = n
  · subst hn
    simp
  · rw [if_neg hn, if_neg (fun hh => hn hh.symm)]

theorem nearestIndex_lt (c0 : Vector2) (cr : List Vector2) (record : Vector2) :
    nearestIndex (c0 :: cr) c0 record < (c0 :: cr).length := by
  obtain ⟨r1, _, _, _⟩ := nearestLoop_inv record (c0 :: cr) (c0 :: cr) 0
    (0, c0.DistanceTo record) rfl (le_refl 0) (Nat.succ_pos _)
    (by rw [List.getD_cons_zero, Vector2.DistanceTo_comm])
    (by intro j hj; omega)
    (by intro j hj; omega)
  exact r1

theorem range_map_bucketOf_nil (k : ℕ) :
    List.replicate k (⟨none, 0⟩ : bucketCollector) =
      (List.range k).map (fun _ => bucketOf []) := by
  apply List.ext_getElem (by simp)
  intro n h1 h2
  simp [bucketOf]

theorem collect_fold (c0 : Vector2) (cr : List Vector2) (dataset : List Vector2) :
    ∀ f : ℕ → List Vector2,
      dataset.foldl (collectStep (c0 :: cr) c0)
          ((List.range (c0 :: cr).length).map (fun i => bucketOf (f i))) =
        (List.range (c0 :: cr).length).map
          (fun i => bucketOf (f i ++ assignedTo (c0 :: cr) c0 dataset i)) := by
  induction dataset with
  | nil =>
    intro f
    simp [assignedTo]
  | cons r ds ih =>
    intro f
    rw [List.foldl_cons]
    have hc : nearestIndex (c0 :: cr) c0 r < (c0 :: cr).length := nearestIndex_lt c0 cr r
    have hstep : collectStep (c0 :: cr) c0
        ((List.range (c0 :: cr).length).map (fun i => bucketOf (f i))) r =
        (List.range (c0 :: cr).length).map
          (fun i => bucketOf (if i = nearestIndex (c0 :: cr) c0 r then f i ++ [r] else f i)) := by
      show ((List.range (c0 :: cr).length).map (fun i => bucketOf (f i))).set
          (nearestIndex (c0 :: cr) c0 r)
          ((((List.range (c0 :: cr).length).map (fun i => bucketOf (f i))).getD
            (nearestIndex (c0 :: cr) c0 r) ⟨none, 0⟩).Collect r) = _
      rw [getD_map_range (fun i => bucketOf (f i)) ⟨none, 0⟩ hc,
        set_map_range (fun i => bucketOf (f i)) (c0 :: cr).length
          (nearestIndex (c0 :: cr) c0 r)
          ((bucketOf (f (nearestIndex (c0 :: cr) c0 r))).Collect r)]
      apply List.map_congr_left
      intro i _
      by_cases hi : i = nearestIndex (c0 :: cr) c0 r
      · rw [if_pos hi, if_pos hi, hi]
        show (bucketOf (f (nearestIndex (c0 :: cr) c0 r))).Collect r = _
        rw [show bucketOf (f (nearestIndex (c0 :: cr) c0 r) ++ [r]) =
          (bucketOf (f (nearestIndex (c0 :: cr) c0 r))).Collect r from by
            simp [bucketOf, List.foldl_append]]
      · rw [if_neg hi, if_neg hi]
    rw [hstep, ih (fun i => if i = nearestIndex (c0 :: cr) c0 r then f i ++ [r] else f i)]
    apply List.map_congr_left
    intro i _
    by_cases hi : i = nearestIndex (c0 :: cr) c0 r
    · rw [if_pos hi]
      congr 1
      rw [List.append_assoc]
      congr 1
      show [r] ++ assignedTo (c0 :: cr) c0 ds i = assignedTo (c0 :: cr) c0 (r :: ds) i
      rw [assignedTo, assignedTo, List.filter_cons,
        if_pos (by simp only [beq_iff_eq]; exact hi.symm)]
      rfl
    · rw [if_neg hi]
      congr 1
      rw [assignedTo, assignedTo, List.filter_cons,
        if_neg (by simp only [beq_iff_eq]; exact fun hh => hi hh.symm)]

theorem collectClusters_eq (c0 : Vector2) (cr : List Vector2) (dataset : List Vector2) :
    collectClusters dataset (c0 :: cr) =
      .ok ((List.range (c0 :: cr).length).map
        (fun i => bucketOf (assignedTo (c0 :: cr) c0 dataset i))) := by
  show (Except.ok (dataset.foldl (collectStep (c0 :: cr) c0)
      (List.replicate (c0 :: cr).length ⟨none, 0⟩)) : Except String (List bucketCollector)) = _
  rw [range_map_bucketOf_nil, collect_fold c0 cr dataset (fun _ => [])]
  simp

/-- Claim C4 (confirmed): in a refinement pass over a non-empty centroid
list, the Assignment step yields one bucket per centroid holding exactly
the vectors assigned to it; the Update step replaces the centroid of every
bucket that received at least one vector by the arithmetic mean of those
vectors (component-wise sum scaled by 1/count) and records the distance
from the old to the new centroid as its delta, while a bucket that
received none keeps its centroid unchanged with a delta of zero. -/
theorem kmeans_update_pass (c0 : Vector2) (cr dataset : List Vector2) :
    ∃ buckets, collectClusters dataset (c0 :: cr) = .ok buckets ∧
      ∀ i, i < (c0 :: cr).length →
        (assignedTo (c0 :: cr) c0 dataset i ≠ [] →
          (createNewCentroids (c0 :: cr) buckets).1.getD i (Vector2d 0 0) =
            arithMean (assignedTo (c0 :: cr) c0 dataset i) ∧
          (createNewCentroids (c0 :: cr) buckets).2.getD i 0 =
            ((c0 :: cr).getD i (Vector2d 0 0)).DistanceTo
              (arithMean (assignedTo (c0 :: cr) c0 dataset i))) ∧
        (assignedTo (c0 :: cr) c0 dataset i = [] →
          (createNewCentroids (c0 :: cr) buckets).1.getD i (Vector2d 0 0) =
            (c0 :: cr).getD i (Vector2d 0 0) ∧
          (createNewCentroids (c0 :: cr) buckets).2.getD i 0 = 0) := by
  refine ⟨_, collectClusters_eq c0 cr dataset, ?_⟩
  intro i hi
  have h1 : (createNewCentroids (c0 :: cr)
      ((List.range (c0 :: cr).length).map
        (fun j => bucketOf (assignedTo (c0 :: cr) c0 dataset j)))).1.getD i (Vector2d 0 0) =
      newCentroidAt (c0 :: cr)
        ((List.range (c0 :: cr).length).map
          (fun j => bucketOf (assignedTo (c0 :: cr) c0 dataset j))) i :=
    getD_map_range _ _ hi
  have h2 : (createNewCentroids (c0 :: cr)
      ((List.range (c0 :: cr).length).map
        (fun j => bucketOf (assignedTo (c0 :: cr) c0 dataset j)))).2.getD i 0 =
      deltaAt (c0 :: cr)
        ((List.range (c0 :: cr).length).map
          (fun j => bucketOf (assignedTo (c0 :: cr) c0 dataset j))) i :=
    getD_map_range _ _ hi
  have hb : ((List.range (c0 :: cr).length).map
      (fun j => bucketOf (assignedTo (c0 :: cr) c0 dataset j))).getD i ⟨none, 0⟩ =
      bucketOf (assignedTo (c0 :: cr) c0 dataset i) :=
    getD_map_range _ _ hi
  constructor
  · intro hne
    obtain ⟨v, vs, hvs⟩ := List.exists_cons_of_ne_nil hne
    rw [h1, h2]
    simp only [newCentroidAt, deltaAt]
    rw [hb, hvs, bucketOf_cons_Average]
    exact ⟨rfl, rfl⟩
  · intro heq
    rw [h1, h2]
    simp only [newCentroidAt, deltaAt]
    rw [hb, heq]
    exact ⟨rfl, rfl⟩

/-- Witness for C4 at a one-centroid clusterer and the dataset [(2,0)]. -/
theorem kmeans_update_pass_witness :
    ∃ buckets, collectClusters [⟨2, 0⟩] [⟨0, 0⟩] = .ok buckets ∧
      ∀ i, i < ([⟨0, 0⟩] : List Vector2).length →
        (assignedTo [⟨0, 0⟩] ⟨0, 0⟩ [⟨2, 0⟩] i ≠ [] →
          (createNewCentroids [⟨0, 0⟩] buckets).1.getD i (Vector2d 0 0) =
            arithMean (assignedTo [⟨0, 0⟩] ⟨0, 0⟩ [⟨2, 0⟩] i) ∧
          (createNewCentroids [⟨0, 0⟩] buckets).2.getD i 0 =
            (([⟨0, 0⟩] : List Vector2).getD i (Vector2d 0 0)).DistanceTo
              (arithMean (assignedTo [⟨0, 0⟩] ⟨0, 0⟩ [⟨2, 0⟩] i))) ∧
        (assignedTo [⟨0, 0⟩] ⟨0, 0⟩ [⟨2, 0⟩] i = [] →
          (createNewCentroids [⟨0, 0⟩] buckets).1.getD i (Vector2d 0 0) =
            ([⟨0, 0⟩] : List Vector2).getD i (Vector2d 0 0) ∧
          (createNewCentroids [⟨0, 0⟩] buckets).2.getD i 0 = 0) :=
  kmeans_update_pass ⟨0, 0⟩ [] [⟨2, 0⟩]
